import Mathlib

/-!
Verification of the TB Chest Analyzer data service (`dataService.js`).

This file gives a shallow embedding of the data loading, normalization,
filtering, statistics and chart-data logic of the `DataService` class, and
proves (or refutes) the frozen claims about it.

Modelling conventions:
* JavaScript runtime values that may flow through the untyped parts of the
  code (raw JSON fields, filter bounds) are modelled by `JSVal`:
  `undefined`, `null`, `NaN`, finite numbers (as `ℚ`) and strings.
  JSON input can not contain `NaN`, `Infinity` or `undefined` values, so
  finite rationals are an exact model of the numbers that can appear.
* `_errorHandler.handleError` calls are counted: functions that may report
  errors return the number of `handleError` invocations they perform.
* `fetch`/`response.json()` are modelled by an oracle argument
  (`FetchResult`) describing the outcome of the transport.
* `new Date()` timestamps are modelled as integer milliseconds passed in
  as an explicit `now` argument.
-/

/-- A JavaScript runtime value, restricted to the shapes that flow through
the data service: `undefined`, `null`, `NaN`, finite numbers and strings. -/
inductive JSVal where
  | undef
  | null
  | nan
  | num (q : ℚ)
  | str (s : String)
deriving DecidableEq

/-- JavaScript truthiness of a `JSVal` (`if (v)`): `undefined`, `null`,
`NaN`, `0` and the empty string are falsy, everything else is truthy. -/
def truthy : JSVal → Bool
  | .undef => false
  | .null => false
  | .nan => false
  | .num q => decide (q ≠ 0)
  | .str s => decide (s ≠ "")

/-- JavaScript `a || b` as it is used in the source (value-returning or). -/
def jsOr (a b : JSVal) : JSVal := if truthy a then a else b

/-- Digit character to its numeric value. -/
def digitVal (c : Char) : ℕ := c.toNat - '0'.toNat

/-- Maximal digit prefix of a character list, and the rest. -/
def takeDigits (cs : List Char) : List Char × List Char :=
  (cs.takeWhile Char.isDigit, cs.dropWhile Char.isDigit)

/-- Value of a list of decimal digit characters. -/
def digitsToNat (ds : List Char) : ℕ :=
  ds.foldl (fun acc c => 10 * acc + digitVal c) 0

/-- Read an optional sign character; returns whether the value is negated
and the remaining characters. -/
def readSign : List Char → Bool × List Char
  | '-' :: t => (true, t)
  | '+' :: t => (false, t)
  | cs => (false, cs)

/-- Read a decimal mantissa `digits [. digits]` (at least one digit overall)
as an exact rational, together with the unconsumed rest; `none` when no
digit is found. -/
def readMantissa (cs : List Char) : Option (ℚ × List Char) :=
  let p := takeDigits cs
  match p.2 with
  | '.' :: r2 =>
    let f := takeDigits r2
    if p.1.isEmpty && f.1.isEmpty then none
    else some ((digitsToNat p.1 : ℚ) + (digitsToNat f.1 : ℚ) / (10 : ℚ) ^ f.1.length, f.2)
  | _ => if p.1.isEmpty then none else some ((digitsToNat p.1 : ℚ), p.2)

/-- Read an optional exponent part `e|E [sign] digits`; when the digits are
missing the exponent is not consumed (as in `parseFloat("1e")`). -/
def readExponent (cs : List Char) : Int × List Char :=
  match cs with
  | c :: r1 =>
    if c = 'e' ∨ c = 'E' then
      let sg := readSign r1
      let es := takeDigits sg.2
      if es.1.isEmpty then (0, cs)
      else ((if sg.1 then -(digitsToNat es.1 : Int) else (digitsToNat es.1 : Int)), es.2)
    else (0, cs)
  | [] => (0, cs)

/-- Scale a rational by a signed power of ten. -/
def applyExp (q : ℚ) (e : Int) : ℚ :=
  if 0 ≤ e then q * (10 : ℚ) ^ e.toNat else q / (10 : ℚ) ^ (-e).toNat

/-- The JavaScript whitespace class used by `parseInt`, `parseFloat` and
`ToNumber` trimming: the ECMAScript WhiteSpace and LineTerminator
characters (ASCII blanks, NBSP, BOM, the Unicode space separators, and
the line/paragraph separators). -/
def jsWhite (c : Char) : Bool :=
  c == ' ' || c == '\t' || c == '\n' || c == '\r' || c == '\x0b' || c == '\x0c' ||
  c == '\u00A0' || c == '\uFEFF' || c == '\u1680' ||
  ('\u2000' ≤ c && c ≤ '\u200A') ||
  c == '\u2028' || c == '\u2029' || c == '\u202F' || c == '\u205F' || c == '\u3000'

/-- Whether the character list `sub` occurs at the start of `s`. -/
def startsWith : List Char → List Char → Bool
  | _, [] => true
  | [], _ :: _ => false
  | a :: as, b :: bs => decide (a = b) && startsWith as bs

/-- A JavaScript floating-point value as produced by `parseFloat` when it
does not return `NaN`: one of the two infinities or a finite number. -/
inductive JSFloat where
  | posInf
  | negInf
  | finite (q : ℚ)
deriving DecidableEq

/-- The JavaScript comparison `x <= q` for a parsed float bound against a
finite record field: `Infinity <= q` is false, `-Infinity <= q` is true. -/
def JSFloat.leQ : JSFloat → ℚ → Bool
  | .posInf, _ => false
  | .negInf, _ => true
  | .finite a, q => decide (a ≤ q)

/-- The JavaScript comparison `q <= x` for a finite record field against a
parsed float bound: `q <= Infinity` is true, `q <= -Infinity` is false. -/
def JSFloat.geQ : JSFloat → ℚ → Bool
  | .posInf, _ => true
  | .negInf, _ => false
  | .finite a, q => decide (q ≤ a)

/-- JavaScript `parseInt(s, 10)` on a string: skip leading whitespace, read
an optional sign and then the maximal decimal-digit prefix; `NaN` (here
`none`) when no digit is present. -/
def parseIntStr (s : String) : Option Int :=
  let cs := s.toList.dropWhile jsWhite
  let sg := readSign cs
  let ds := takeDigits sg.2
  if ds.1.isEmpty then none
  else some (if sg.1 then -(digitsToNat ds.1 : Int) else (digitsToNat ds.1 : Int))

/-- JavaScript `parseFloat(s)` on a string: skip leading whitespace, then
read the longest `StrDecimalLiteral` prefix — an optional sign followed
by either the `Infinity` literal or a mantissa with optional exponent;
`NaN` (here `none`) when neither is present. -/
def parseFloatStr (s : String) : Option JSFloat :=
  let cs := s.toList.dropWhile jsWhite
  let sg := readSign cs
  if startsWith sg.2 "Infinity".toList then
    some (if sg.1 then .negInf else .posInf)
  else
    match readMantissa sg.2 with
    | none => none
    | some (m, r) =>
      let e := readExponent r
      some (.finite (applyExp (if sg.1 then -m else m) e.1))

/-- JavaScript `ToNumber` on a string (used by `>` and `/`): whitespace-only
strings convert to `0`; otherwise the whole trimmed string must be a
decimal literal, else the result is `NaN` (`none`).  Hexadecimal and
`Infinity` literals are not modelled here: `ToNumber` is only reached
through `>` and `/` in `_processData`, and no claim depends on string
inputs there. -/
def strToNumber (s : String) : Option ℚ :=
  let cs := ((s.toList.dropWhile jsWhite).reverse.dropWhile jsWhite).reverse
  if cs.isEmpty then some 0
  else
    let sg := readSign cs
    match readMantissa sg.2 with
    | none => none
    | some (m, r) =>
      let e := readExponent r
      if e.2.isEmpty then some (applyExp (if sg.1 then -m else m) e.1) else none

/-- JavaScript `ToNumber` of a `JSVal`; `none` stands for `NaN`. -/
def toNumber : JSVal → Option ℚ
  | .undef => none
  | .null => some 0
  | .nan => none
  | .num q => some q
  | .str s => strToNumber s

/-- JavaScript `v > q` for a numeric literal right operand: both sides are
converted to numbers, any `NaN` makes the comparison false. -/
def jsGtNum (a : JSVal) (q : ℚ) : Bool :=
  match toNumber a with
  | some x => decide (q < x)
  | none => false

/-- JavaScript `a / b` on `JSVal`s.  `NaN` operands propagate to `NaN`.
Division by zero yields an infinity in JavaScript; the only division in
the source is guarded by `chests > 0`, which forces a nonzero (indeed
positive) divisor, so that branch is unreachable there and is mapped to
`NaN` to keep the function total. -/
def jsDiv (a b : JSVal) : JSVal :=
  match toNumber a, toNumber b with
  | some x, some y => if y = 0 then .nan else .num (x / y)
  | _, _ => .nan

/-- JavaScript strict equality `===` on `JSVal`s (`NaN === NaN` is false;
values of different types are never strictly equal). -/
def jsStrictEq : JSVal → JSVal → Bool
  | .undef, .undef => true
  | .null, .null => true
  | .num a, .num b => decide (a = b)
  | .str a, .str b => decide (a = b)
  | _, _ => false

/-- JavaScript `String(v)` as used by the default array sort.  For numbers
it is exact on integers (JavaScript prints integral floats without a
decimal point); non-integral rationals are rendered with Lean's `ℚ`
printer, an approximation that no claim exercises (the sorted lists hold
alliance/server values, which are strings after normalization). -/
def jsToString : JSVal → String
  | .undef => "undefined"
  | .null => "null"
  | .nan => "NaN"
  | .str s => s
  | .num q => if q.den = 1 then toString q.num else toString q

/-- Truncation of a rational toward zero (the integer part JavaScript's
`parseInt` recovers from a number's decimal rendering). -/
def ratTrunc (q : ℚ) : Int := if 0 ≤ q then q.floor else -((-q).floor)

/-- JavaScript `parseInt(v, 10)`: the argument is first converted to a
string.  For finite numbers in plain decimal notation this truncates
toward zero (numbers large enough to print in exponential notation are
not modelled); `undefined`, `null` and `NaN` stringify to digit-free
strings and give `NaN` (`none`). -/
def parseIntJS : JSVal → Option Int
  | .num q => some (ratTrunc q)
  | .str s => parseIntStr s
  | _ => none

/-- JavaScript `parseFloat(v)`: exact on finite numbers; `undefined`,
`null` and `NaN` stringify to strings with no decimal-literal prefix and
give `NaN`. -/
def parseFloatJS : JSVal → Option JSFloat
  | .num q => some (.finite q)
  | .str s => parseFloatStr s
  | _ => none

/-- Whether the character list `sub` occurs contiguously inside `s`. -/
def containsSub : List Char → List Char → Bool
  | [], sub => sub.isEmpty
  | c :: rest, sub => startsWith (c :: rest) sub || containsSub rest sub

/-- JavaScript `s.includes(sub)` on strings. -/
def strIncludes (s sub : String) : Bool := containsSub s.toList sub.toList

/-- A normalized player record as consumed by the query surface
(`getFilteredPlayers`, `getStatistics`, chart builders).  Fields follow
the data contract of well-formed records: string identity fields and
numeric (rational) `score`, `chests` and `ratio`. -/
structure Player where
  id : String
  name : String
  alliance : String
  server : String
  score : ℚ
  chests : ℚ
  ratio : ℚ
deriving DecidableEq

/-- The filter criteria object taken by `getFilteredPlayers`.  The three
string-valued criteria are modelled as strings with `""` for "absent"
(both are falsy, and only truthiness is tested before use); the six
numeric bounds keep their full JavaScript-value generality, with
`JSVal.undef` for an absent property. -/
structure FilterSpec where
  playerSearch : String := ""
  selectedServer : String := ""
  selectedAlliance : String := ""
  minScore : JSVal := .undef
  maxScore : JSVal := .undef
  minChests : JSVal := .undef
  maxChests : JSVal := .undef
  minRatio : JSVal := .undef
  maxRatio : JSVal := .undef
deriving DecidableEq

/-- The `filters.playerSearch` stage: when the search value is truthy,
keep players whose lowercased name contains the lowercased search term. -/
def nameStage (v : String) (l : List Player) : List Player :=
  if v ≠ "" then l.filter (fun p => strIncludes p.name.toLower v.toLower) else l

/-- The `filters.selectedServer` stage: exact match on `player.server`. -/
def serverStage (v : String) (l : List Player) : List Player :=
  if v ≠ "" then l.filter (fun p => decide (p.server = v)) else l

/-- The `filters.selectedAlliance` stage: exact match on `player.alliance`. -/
def allianceStage (v : String) (l : List Player) : List Player :=
  if v ≠ "" then l.filter (fun p => decide (p.alliance = v)) else l

/-- A lower-bound stage parsed with `parseInt` (used for `minScore` and
`minChests`): skipped when the bound is falsy or does not parse. -/
def minIntStage (v : JSVal) (key : Player → ℚ) (l : List Player) : List Player :=
  if truthy v then
    match parseIntJS v with
    | some n => l.filter (fun p => decide ((n : ℚ) ≤ key p))
    | none => l
  else l

/-- An upper-bound stage parsed with `parseInt` (used for `maxScore` and
`maxChests`): skipped when the bound is falsy or does not parse. -/
def maxIntStage (v : JSVal) (key : Player → ℚ) (l : List Player) : List Player :=
  if truthy v then
    match parseIntJS v with
    | some n => l.filter (fun p => decide (key p ≤ (n : ℚ)))
    | none => l
  else l

/-- A lower-bound stage parsed with `parseFloat` (used for `minRatio`). -/
def minFloatStage (v : JSVal) (key : Player → ℚ) (l : List Player) : List Player :=
  if truthy v then
    match parseFloatJS v with
    | some x => l.filter (fun p => x.leQ (key p))
    | none => l
  else l

/-- An upper-bound stage parsed with `parseFloat` (used for `maxRatio`). -/
def maxFloatStage (v : JSVal) (key : Player → ℚ) (l : List Player) : List Player :=
  if truthy v then
    match parseFloatJS v with
    | some x => l.filter (fun p => x.geQ (key p))
    | none => l
  else l

/-- `DataService.getFilteredPlayers`: the nine filter stages applied
conjunctively in source order (name search, server, alliance, score
range, chests range, ratio range) to a copy of the cached player list.
The surrounding `try`/`catch` of the source cannot fire here: every
stage is total. -/
def getFilteredPlayers (ps : List Player) (f : FilterSpec) : List Player :=
  maxFloatStage f.maxRatio (fun p => p.ratio)
    (minFloatStage f.minRatio (fun p => p.ratio)
      (maxIntStage f.maxChests (fun p => p.chests)
        (minIntStage f.minChests (fun p => p.chests)
          (maxIntStage f.maxScore (fun p => p.score)
            (minIntStage f.minScore (fun p => p.score)
              (allianceStage f.selectedAlliance
                (serverStage f.selectedServer
                  (nameStage f.playerSearch ps))))))))

/-- `DataService.getPlayerDetails`: first cached player whose `id` equals
the argument, `null` (here `none`) otherwise.  A pure function of the
cached list: the source only calls `Array.prototype.find` on it. -/
def getPlayerDetails (ps : List Player) (pid : String) : Option Player :=
  ps.find? (fun p => decide (p.id = pid))

/-- Modelled from the spec: "returns the first cached PlayerRecord whose id
field equals the argument, and returns null when no cached record has
that id" — a direct recursive rendering of those words, to be compared
with the source's `find`-based implementation. -/
def firstWithId (ps : List Player) (pid : String) : Option Player :=
  match ps with
  | [] => none
  | p :: t => if p.id = pid then some p else firstWithId t pid

/-- A raw player entry of the input document: each of the six properties
may be absent (`JSVal.undef`) or hold any JSON value. -/
structure RawPlayer where
  id : JSVal := .undef
  name : JSVal := .undef
  alliance : JSVal := .undef
  server : JSVal := .undef
  score : JSVal := .undef
  chests : JSVal := .undef
deriving DecidableEq

/-- A raw input document: `data.players` may be absent (the source
substitutes `[]` via `data.players || []`). -/
structure RawDoc where
  players : Option (List RawPlayer) := none
deriving DecidableEq

/-- A player record exactly as `_processData` builds it.  Because the raw
fields are untyped, the produced fields are general `JSVal`s (for
instance a truthy string `score` survives `player.score || 0` as a
string). -/
structure ProcPlayer where
  id : JSVal
  name : JSVal
  alliance : JSVal
  server : JSVal
  score : JSVal
  chests : JSVal
  ratio : JSVal
deriving DecidableEq

/-- The per-entry transformation of `_processData`: defaults via `||`, and
`ratio: player.chests > 0 ? player.score / player.chests : 0` — note that
the ratio divides the RAW `score`/`chests` fields, not the defaulted
ones. -/
def procPlayer (i : ℕ) (p : RawPlayer) : ProcPlayer :=
  { id := jsOr p.id (.str ("player_" ++ toString i))
    name := jsOr p.name (.str ("Unknown Player " ++ toString i))
    alliance := jsOr p.alliance (.str "")
    server := jsOr p.server (.str "Unknown")
    score := jsOr p.score (.num 0)
    chests := jsOr p.chests (.num 0)
    ratio := if jsGtNum p.chests 0 then jsDiv p.score p.chests else .num 0 }

/-- Keep the first occurrence of every element, in order — the effect of
`[...new Set(xs)]` on a JavaScript array. -/
def dedupFirst (l : List JSVal) : List JSVal :=
  l.foldl (fun acc x => if x ∈ acc then acc else acc ++ [x]) []

/-- JavaScript's default `Array.prototype.sort()`: a stable sort comparing
elements by their string conversion. -/
def jsSortDefault (l : List JSVal) : List JSVal :=
  l.mergeSort (fun a b => decide (jsToString a ≤ jsToString b))

/-- The normalization-layer cache `this._cache`: processed players, the
derived alliance and server value lists, and the load timestamp. -/
structure NCache where
  players : List ProcPlayer
  alliances : List JSVal
  servers : List JSVal
  lastUpdated : Option Int
deriving DecidableEq

/-- The empty cache the service starts with. -/
def emptyNCache : NCache := ⟨[], [], [], none⟩

/-- `DataService._processData`: map every raw entry through `procPlayer`,
derive the alliance list (`[...new Set(...)].sort()` after dropping `''`)
and the server list (same, dropping `'Unknown'`), and replace the cache,
stamping it with the current time. -/
def processData (doc : RawDoc) (now : Int) : NCache :=
  let players := doc.players.getD []
  let processed := players.mapIdx procPlayer
  let alliances := jsSortDefault (dedupFirst
    ((processed.map (fun p => p.alliance)).filter (fun a => !jsStrictEq a (.str ""))))
  let servers := jsSortDefault (dedupFirst
    ((processed.map (fun p => p.server)).filter (fun s => !jsStrictEq s (.str "Unknown"))))
  { players := processed, alliances := alliances, servers := servers, lastUpdated := some now }

/-- `DataService._cacheDuration`: one hour in milliseconds. -/
def cacheDuration : Int := 60 * 60 * 1000

/-- `DataService._isCacheValid`: a `null` timestamp is never valid;
otherwise the cache is valid while its age is strictly below
`cacheDuration`. -/
def isCacheValid (lastUpdated : Option Int) (now : Int) : Bool :=
  match lastUpdated with
  | none => false
  | some t => decide (now - t < cacheDuration)

/-- `DataService.isDataLoaded`: the cached player list is nonempty. -/
def isDataLoaded (c : NCache) : Bool := decide (0 < c.players.length)

/-- The body a `fetch` response yields: a JSON parse failure or a parsed
document. -/
inductive JsonBody where
  | parseFailure
  | parsed (doc : RawDoc)
deriving DecidableEq

/-- The outcome of the transport: the `fetch` promise rejects, or an HTTP
response arrives with its `ok` flag and body. -/
inductive FetchResult where
  | netError
  | httpResponse (ok : Bool) (body : JsonBody)
deriving DecidableEq

/-- A transport outcome counts as failed when the fetch rejects, the
response status is not ok, or the body fails to parse as JSON. -/
def fetchFailed : FetchResult → Bool
  | .netError => true
  | .httpResponse ok body =>
    !ok || (match body with | .parseFailure => true | .parsed _ => false)

/-- `DataService.loadData`: with fresh valid cached data and no forced
refresh, succeed without fetching; otherwise fetch, fail (reporting one
error through the error handler and leaving the cache alone) on any
transport failure, and on success replace the cache via `_processData`.
The returned triple is (success flag, cache afterwards, number of
`handleError` calls). -/
def loadData (c : NCache) (forceRefresh : Bool) (now : Int) (fr : FetchResult) :
    Bool × NCache × Nat :=
  if !forceRefresh && isDataLoaded c && isCacheValid c.lastUpdated now then
    (true, c, 0)
  else
    match fr with
    | .netError => (false, c, 1)
    | .httpResponse ok body =>
      if !ok then (false, c, 1)
      else
        match body with
        | .parseFailure => (false, c, 1)
        | .parsed doc => (true, processData doc now, 0)

/-- One chart series: a display name and a list of numeric data points. -/
structure ChartSeries where
  name : String
  data : List ℚ
deriving DecidableEq

/-- The chart-ready shape every chart builder returns. -/
structure ChartData where
  series : List ChartSeries
  categories : List String
deriving DecidableEq

/-- A numeric bucket of the distribution charts: inclusive lower bound,
exclusive upper bound (`none` models the `Infinity` upper bound of the
last bucket), and a display label. -/
structure QRange where
  min : ℚ
  max : Option ℚ
  label : String
deriving DecidableEq

/-- The bucket membership test of the distribution charts:
`value >= range.min && value < range.max` (a comparison against
`Infinity` is always true for finite values). -/
def inRangeQ (x : ℚ) (r : QRange) : Bool :=
  decide (r.min ≤ x) && (match r.max with | some m => decide (x < m) | none => true)

/-- The fixed score buckets of `_createScoreDistributionData`. -/
def scoreRanges : List QRange :=
  [ ⟨0, some 1000, "0-1K"⟩
  , ⟨1000, some 5000, "1K-5K"⟩
  , ⟨5000, some 10000, "5K-10K"⟩
  , ⟨10000, some 50000, "10K-50K"⟩
  , ⟨50000, some 100000, "50K-100K"⟩
  , ⟨100000, some 500000, "100K-500K"⟩
  , ⟨500000, some 1000000, "500K-1M"⟩
  , ⟨1000000, none, "1M+"⟩ ]

/-- The fixed chest buckets of `_createChestDistributionData`. -/
def chestRanges : List QRange :=
  [ ⟨0, some 10, "0-10"⟩
  , ⟨10, some 50, "10-50"⟩
  , ⟨50, some 100, "50-100"⟩
  , ⟨100, some 500, "100-500"⟩
  , ⟨500, some 1000, "500-1K"⟩
  , ⟨1000, some 5000, "1K-5K"⟩
  , ⟨5000, some 10000, "5K-10K"⟩
  , ⟨10000, none, "10K+"⟩ ]

/-- The fixed ratio buckets of `_createRatioDistributionData`. -/
def ratioRanges : List QRange :=
  [ ⟨0, some 10, "0-10"⟩
  , ⟨10, some 50, "10-50"⟩
  , ⟨50, some 100, "50-100"⟩
  , ⟨100, some 200, "100-200"⟩
  , ⟨200, some 500, "200-500"⟩
  , ⟨500, some 1000, "500-1K"⟩
  , ⟨1000, none, "1K+"⟩ ]

/-- Bucket counts over a range table: for each range, the number of players
whose `key` lies in it (`players.filter(...).length`). -/
def rangeCounts (rs : List QRange) (key : Player → ℚ) (l : List Player) : List ℕ :=
  rs.map (fun r => (l.filter (fun p => inRangeQ (key p) r)).length)

/-- `DataService._createScoreDistributionData`. -/
def createScoreDistributionData (l : List Player) : ChartData :=
  { series := [⟨"Players", (rangeCounts scoreRanges (fun p => p.score) l).map (fun (n : ℕ) => (n : ℚ))⟩]
    categories := scoreRanges.map (fun r => r.label) }

/-- `DataService._createChestDistributionData`. -/
def createChestDistributionData (l : List Player) : ChartData :=
  { series := [⟨"Players", (rangeCounts chestRanges (fun p => p.chests) l).map (fun (n : ℕ) => (n : ℚ))⟩]
    categories := chestRanges.map (fun r => r.label) }

/-- `DataService._createRatioDistributionData`. -/
def createRatioDistributionData (l : List Player) : ChartData :=
  { series := [⟨"Players", (rangeCounts ratioRanges (fun p => p.ratio) l).map (fun (n : ℕ) => (n : ℚ))⟩]
    categories := ratioRanges.map (fun r => r.label) }

/-- JavaScript `Array.prototype.sort(cmp)` for a numeric comparator: the
ECMAScript specification requires the result to be stable and sorted
with `a` preceding `b` whenever `cmp(a, b) < 0`, which (for a consistent
comparator) is exactly a stable merge sort under
`le a b := cmp a b ≤ 0`. -/
def jsSortByCmp (cmp : Player → Player → ℚ) (l : List Player) : List Player :=
  l.mergeSort (fun a b => decide (cmp a b ≤ 0))

/-- Per-group statistics (the shape built for each alliance and server in
`getStatistics` and the comparison charts). -/
structure GroupStats where
  playerCount : ℕ
  totalScore : ℚ
  totalChests : ℚ
  averageScore : ℚ
  averageChests : ℚ
  averageRatio : ℚ
deriving DecidableEq

/-- The query-layer cache view used by `getStatistics`: the player list and
the derived alliance/server name lists, for well-formed (string-named,
numerically-fielded) data. -/
structure QCache where
  players : List Player
  alliances : List String
  servers : List String
  lastUpdated : Option Int
deriving DecidableEq

/-- The sum-and-average block `getStatistics` computes for one group of
players (count, totals, and zero-guarded means). -/
def groupStatsOf (members : List Player) : GroupStats :=
  { playerCount := members.length
    totalScore := (members.map (fun p => p.score)).sum
    totalChests := (members.map (fun p => p.chests)).sum
    averageScore :=
      if 0 < members.length then (members.map (fun p => p.score)).sum / (members.length : ℚ) else 0
    averageChests :=
      if 0 < members.length then (members.map (fun p => p.chests)).sum / (members.length : ℚ) else 0
    averageRatio :=
      if 0 < members.length then (members.map (fun p => p.ratio)).sum / (members.length : ℚ) else 0 }

/-- The record `DataService.getStatistics` returns. -/
structure Statistics where
  totalPlayers : ℕ
  totalChests : ℚ
  totalScore : ℚ
  averageChests : ℚ
  averageScore : ℚ
  averageRatio : ℚ
  topPlayersByScore : List Player
  topPlayersByChests : List Player
  topPlayersByRatio : List Player
  allianceStats : List (String × GroupStats)
  serverStats : List (String × GroupStats)
  lastUpdated : Option Int
deriving DecidableEq

/-- `DataService.getStatistics`: totals and zero-guarded means over the
cached players, the three top-10 lists (each `[...players].sort(cmp)`
followed by `slice(0, 10)`), and per-alliance/per-server breakdowns for
every name in the cached alliance/server lists. -/
def getStatistics (c : QCache) : Statistics :=
  let players := c.players
  { totalPlayers := players.length
    totalChests := (players.map (fun p => p.chests)).sum
    totalScore := (players.map (fun p => p.score)).sum
    averageChests :=
      if 0 < players.length then (players.map (fun p => p.chests)).sum / (players.length : ℚ) else 0
    averageScore :=
      if 0 < players.length then (players.map (fun p => p.score)).sum / (players.length : ℚ) else 0
    averageRatio :=
      if 0 < players.length then (players.map (fun p => p.ratio)).sum / (players.length : ℚ) else 0
    topPlayersByScore := (jsSortByCmp (fun a b => b.score - a.score) players).take 10
    topPlayersByChests := (jsSortByCmp (fun a b => b.chests - a.chests) players).take 10
    topPlayersByRatio := (jsSortByCmp (fun a b => b.ratio - a.ratio) players).take 10
    allianceStats := c.alliances.map (fun a =>
      (a, groupStatsOf (players.filter (fun p => decide (p.alliance = a)))))
    serverStats := c.servers.map (fun s =>
      (s, groupStatsOf (players.filter (fun p => decide (p.server = s)))))
    lastUpdated := c.lastUpdated }

/-- `metric.charAt(0).toUpperCase() + metric.slice(1)`. -/
def capitalizeJS (s : String) : String := (s.take 1).toUpper ++ s.drop 1

/-- Field selection `player[metric]` for a validated metric name; any name
other than `"chests"`/`"ratio"` reads `score` (after the validation in
`_createTopPlayersData` only the three known names reach this). -/
def metricOf (m : String) (p : Player) : ℚ :=
  match m with
  | "chests" => p.chests
  | "ratio" => p.ratio
  | _ => p.score

/-- The metric validation at the top of `_createTopPlayersData`: any name
outside `score`/`chests`/`ratio` is replaced by `score`. -/
def validMetric (metric : String) : String :=
  if metric ∈ (["score", "chests", "ratio"] : List String) then metric else "score"

/-- `DataService._createTopPlayersData`: validate the metric, stable-sort
descending by it, keep the first 10, and shape the series/categories. -/
def createTopPlayersData (l : List Player) (metric : String) : ChartData :=
  let m := validMetric metric
  let top := (jsSortByCmp (fun a b => metricOf m b - metricOf m a) l).take 10
  { series := [⟨capitalizeJS m, top.map (metricOf m)⟩]
    categories := top.map (fun p => p.name) }

/-- `DataService._createAllianceComparisonData`: distinct non-empty
alliances of the (filtered) players, their stats, top 10 by player count
(stable sort descending), shaped into four series. -/
def createAllianceComparisonData (l : List Player) : ChartData :=
  let names := (l.map (fun p => p.alliance)).filter (fun a => !(a == ""))
  let distinct := (names.foldl (fun acc x => if x ∈ acc then acc else acc ++ [x]) [])
  let stats := distinct.map (fun a => (a, groupStatsOf (l.filter (fun p => decide (p.alliance = a)))))
  let top := (stats.mergeSort
    (fun a b => decide (((b.2.playerCount : ℚ) - (a.2.playerCount : ℚ)) ≤ 0))).take 10
  { series :=
      [ ⟨"Total Score", top.map (fun a => a.2.totalScore)⟩
      , ⟨"Total Chests", top.map (fun a => a.2.totalChests)⟩
      , ⟨"Average Score", top.map (fun a => a.2.averageScore)⟩
      , ⟨"Average Chests", top.map (fun a => a.2.averageChests)⟩ ]
    categories := top.map (fun a => a.1) }

/-- `DataService._createServerComparisonData`: distinct non-`Unknown`
servers of the (filtered) players with count and average stats. -/
def createServerComparisonData (l : List Player) : ChartData :=
  let names := (l.map (fun p => p.server)).filter (fun s => !(s == "Unknown"))
  let distinct := (names.foldl (fun acc x => if x ∈ acc then acc else acc ++ [x]) [])
  let stats := distinct.map (fun s => (s, groupStatsOf (l.filter (fun p => decide (p.server = s)))))
  { series :=
      [ ⟨"Player Count", stats.map (fun s => (s.2.playerCount : ℚ))⟩
      , ⟨"Average Score", stats.map (fun s => s.2.averageScore)⟩
      , ⟨"Average Chests", stats.map (fun s => s.2.averageChests)⟩ ]
    categories := stats.map (fun s => s.1) }

/-- The options object of `getChartData`: an optional filter spec and an
optional metric string. -/
structure ChartOptions where
  filters : Option FilterSpec := none
  metric : Option String := none
deriving DecidableEq

/-- JavaScript `m || dflt` for an optional string. -/
def jsOrStr (m : Option String) (dflt : String) : String :=
  match m with
  | some s => if s ≠ "" then s else dflt
  | none => dflt

/-- The `try` block of `DataService.getChartData`: filter the cached
players with `options.filters` (an absent argument becomes `{}` through
the default parameter), dispatch on the chart type, and throw (model:
`Except.error`) on an unknown type. -/
def getChartDataE (ps : List Player) (chartType : String) (opts : ChartOptions) :
    Except String ChartData :=
  let players := getFilteredPlayers ps (opts.filters.getD {})
  match chartType with
  | "score_distribution" => .ok (createScoreDistributionData players)
  | "chest_distribution" => .ok (createChestDistributionData players)
  | "alliance_comparison" => .ok (createAllianceComparisonData players)
  | "server_comparison" => .ok (createServerComparisonData players)
  | "ratio_distribution" => .ok (createRatioDistributionData players)
  | "top_players" => .ok (createTopPlayersData players (jsOrStr opts.metric "score"))
  | other => .error ("Unknown chart type: " ++ other)

/-- `DataService.getChartData` including its `catch`: a thrown error is
reported once to the error handler and replaced by the empty chart
shape.  Returns the chart data and the number of `handleError` calls. -/
def getChartData (ps : List Player) (chartType : String) (opts : ChartOptions) :
    ChartData × Nat :=
  match getChartDataE ps chartType opts with
  | .ok d => (d, 0)
  | .error _ => ({ series := [], categories := [] }, 1)

/-- Concrete players used by witnesses. -/
def pA : Player := ⟨"p1", "Alice", "A", "S1", 500, 5, 100⟩

/-- A second concrete player used by witnesses. -/
def pB : Player := ⟨"p2", "Bob", "B", "S2", 1500, 10, 150⟩

/-- C1: the claim that the normalized `ratio` is never `NaN` FAILS on the
code.  For the raw document `{players: [{chests: 5}]}` (the `score`
property absent), `_processData` evaluates
`player.chests > 0 ? player.score / player.chests : 0` on the RAW
fields, so the produced ratio is `undefined / 5 = NaN`, while the
produced record has `score = 0`, `chests = 5`, and `score / chests`
would be `0`. -/
theorem claim_C1_ratio_nan_on_missing_score :
    ((processData ⟨some [{ chests := .num 5 }]⟩ 0).players.map (fun p => p.ratio)) = [JSVal.nan] ∧
    ((processData ⟨some [{ chests := .num 5 }]⟩ 0).players.map (fun p => p.score)) = [JSVal.num 0] ∧
    ((processData ⟨some [{ chests := .num 5 }]⟩ 0).players.map (fun p => p.chests)) = [JSVal.num 5] ∧
    jsDiv (JSVal.num 0) (JSVal.num 5) = JSVal.num 0 := by
  refine ⟨rfl, rfl, rfl, ?_⟩
  simp [jsDiv, toNumber]

/-- C2: when the transport fails (fetch rejection, non-ok HTTP status, or
JSON parse failure) on a reload that actually fetches (forced, or the
cached data is absent/stale), `loadData` returns `false`, leaves the
cache exactly as it was, and reports exactly one error. -/
theorem claim_C2_load_failure_preserves_cache (c : NCache) (force : Bool) (now : Int)
    (fr : FetchResult) (hfail : fetchFailed fr = true)
    (hfetch : force = true ∨ ¬(isDataLoaded c = true ∧ isCacheValid c.lastUpdated now = true)) :
    loadData c force now fr = (false, c, 1) := by
  have hcond : (!force && isDataLoaded c && isCacheValid c.lastUpdated now) = false := by
    rcases hfetch with h | h
    · simp [h]
    · cases hb : isDataLoaded c <;> cases hv : isCacheValid c.lastUpdated now <;> simp_all
  cases fr with
  | netError => simp [loadData, hcond]
  | httpResponse ok body =>
    cases ok with
    | false => simp [loadData, hcond]
    | true =>
      cases body with
      | parseFailure => simp [loadData, hcond]
      | parsed doc => simp [fetchFailed] at hfail

/-- Witness for C2 at a concrete input: a forced reload over the empty
cache whose fetch rejects. -/
theorem claim_C2_witness :
    loadData emptyNCache true 0 FetchResult.netError = (false, emptyNCache, 1) :=
  claim_C2_load_failure_preserves_cache emptyNCache true 0 FetchResult.netError rfl (Or.inl rfl)

/-- C4: for any chart type outside the six known kinds, `getChartData`
returns the empty chart shape and reports exactly one error (the thrown
`Unknown chart type` error is caught inside the method, so nothing
propagates to the caller). -/
theorem claim_C4_unknown_chart_kind (ps : List Player) (opts : ChartOptions) (k : String)
    (hk : k ∉ (["score_distribution", "chest_distribution", "alliance_comparison",
      "server_comparison", "ratio_distribution", "top_players"] : List String)) :
    getChartData ps k opts = ({ series := [], categories := [] }, 1) := by
  have he : getChartDataE ps k opts = .error ("Unknown chart type: " ++ k) := by
    unfold getChartDataE
    split <;> simp_all
  simp [getChartData, he]

/-- Witness for C4: `getChartData('bogus', {})` yields the empty shape and
one reported error. -/
theorem claim_C4_witness :
    getChartData [] "bogus" {} = ({ series := [], categories := [] }, 1) :=
  claim_C4_unknown_chart_kind [] {} "bogus" (by decide)

/-- C5: with a non-null timestamp the cache is valid exactly when its age
is strictly below one hour (3600000 ms); at exactly one hour it is
stale, and a null timestamp is always stale. -/
theorem claim_C5_cache_staleness (now t : Int) :
    (isCacheValid (some t) now = true ↔ now - t < 3600000) ∧
    (now - t = 3600000 → isCacheValid (some t) now = false) ∧
    isCacheValid none now = false := by
  refine ⟨?_, ?_, rfl⟩
  · simp [isCacheValid, cacheDuration]
  · intro h
    simp [isCacheValid, cacheDuration, h]

/-- Witness for C5 at the one-hour boundary. -/
theorem claim_C5_witness :
    isCacheValid (some 0) 3600000 = false ∧ isCacheValid none 3600000 = false :=
  ⟨(claim_C5_cache_staleness 3600000 0).2.1 (by decide),
    (claim_C5_cache_staleness 3600000 0).2.2⟩

/-- C10: `getPlayerDetails` returns the first cached record whose `id`
equals the argument (equal to the recursive spec-side first-match), is
`null` (`none`) exactly when no cached record matches, and any returned
record is a cached record with the requested id.  It is a pure function
of the cached list, so the cache is never modified. -/
theorem claim_C10_get_player_details (ps : List Player) (pid : String) :
    getPlayerDetails ps pid = firstWithId ps pid ∧
    (getPlayerDetails ps pid = none ↔ ∀ p ∈ ps, p.id ≠ pid) ∧
    (∀ r, getPlayerDetails ps pid = some r → r ∈ ps ∧ r.id = pid) := by
  refine ⟨?_, ?_, ?_⟩
  · induction ps with
    | nil => rfl
    | cons p t ih =>
      by_cases h : p.id = pid <;>
        simp_all [getPlayerDetails, firstWithId, List.find?_cons, h]
  · rw [getPlayerDetails, List.find?_eq_none]
    simp
  · intro r hr
    rw [getPlayerDetails] at hr
    have h2 := List.find?_some hr
    simp only [decide_eq_true_eq] at h2
    exact ⟨List.mem_of_find?_eq_some hr, h2⟩

/-- Witness for C10 on a concrete two-element cache. -/
theorem claim_C10_witness :
    getPlayerDetails [pA, pB] "p2" = firstWithId [pA, pB] "p2" :=
  (claim_C10_get_player_details [pA, pB] "p2").1

/-- The predicate the name-search stage filters by (identically true when
the stage is skipped). -/
def namePred (v : String) (p : Player) : Bool :=
  if v ≠ "" then strIncludes p.name.toLower v.toLower else true

/-- The predicate the server stage filters by. -/
def serverPred (v : String) (p : Player) : Bool :=
  if v ≠ "" then decide (p.server = v) else true

/-- The predicate the alliance stage filters by. -/
def alliancePred (v : String) (p : Player) : Bool :=
  if v ≠ "" then decide (p.alliance = v) else true

/-- The predicate a `parseInt` lower-bound stage filters by. -/
def minIntPred (v : JSVal) (key : Player → ℚ) (p : Player) : Bool :=
  if truthy v then
    match parseIntJS v with
    | some n => decide ((n : ℚ) ≤ key p)
    | none => true
  else true

/-- The predicate a `parseInt` upper-bound stage filters by. -/
def maxIntPred (v : JSVal) (key : Player → ℚ) (p : Player) : Bool :=
  if truthy v then
    match parseIntJS v with
    | some n => decide (key p ≤ (n : ℚ))
    | none => true
  else true

/-- The predicate a `parseFloat` lower-bound stage filters by. -/
def minFloatPred (v : JSVal) (key : Player → ℚ) (p : Player) : Bool :=
  if truthy v then
    match parseFloatJS v with
    | some x => x.leQ (key p)
    | none => true
  else true

/-- The predicate a `parseFloat` upper-bound stage filters by. -/
def maxFloatPred (v : JSVal) (key : Player → ℚ) (p : Player) : Bool :=
  if truthy v then
    match parseFloatJS v with
    | some x => x.geQ (key p)
    | none => true
  else true

/-- The name stage is a `List.filter` by its predicate. -/
theorem nameStage_eq_filter (v : String) (l : List Player) :
    nameStage v l = l.filter (namePred v) := by
  unfold nameStage
  by_cases h : v = ""
  · rw [if_neg (by simp [h]), eq_comm, List.filter_eq_self]
    intro p _
    simp [namePred, h]
  · rw [if_pos h]
    exact List.filter_congr (fun p _ => by simp [namePred, h])

/-- The server stage is a `List.filter` by its predicate. -/
theorem serverStage_eq_filter (v : String) (l : List Player) :
    serverStage v l = l.filter (serverPred v) := by
  unfold serverStage
  by_cases h : v = ""
  · rw [if_neg (by simp [h]), eq_comm, List.filter_eq_self]
    intro p _
    simp [serverPred, h]
  · rw [if_pos h]
    exact List.filter_congr (fun p _ => by simp [serverPred, h])

/-- The alliance stage is a `List.filter` by its predicate. -/
theorem allianceStage_eq_filter (v : String) (l : List Player) :
    allianceStage v l = l.filter (alliancePred v) := by
  unfold allianceStage
  by_cases h : v = ""
  · rw [if_neg (by simp [h]), eq_comm, List.filter_eq_self]
    intro p _
    simp [alliancePred, h]
  · rw [if_pos h]
    exact List.filter_congr (fun p _ => by simp [alliancePred, h])

/-- An integer lower-bound stage is a `List.filter` by its predicate. -/
theorem minIntStage_eq_filter (v : JSVal) (key : Player → ℚ) (l : List Player) :
    minIntStage v key l = l.filter (minIntPred v key) := by
  unfold minIntStage
  by_cases h : truthy v
  · rw [if_pos h]
    cases hp : parseIntJS v with
    | none => exact (List.filter_eq_self.mpr (fun p _ => by simp [minIntPred, h, hp])).symm
    | some n => exact List.filter_congr (fun p _ => by simp [minIntPred, h, hp])
  · rw [if_neg h, eq_comm, List.filter_eq_self]
    intro p _
    simp [minIntPred, h]

/-- An integer upper-bound stage is a `List.filter` by its predicate. -/
theorem maxIntStage_eq_filter (v : JSVal) (key : Player → ℚ) (l : List Player) :
    maxIntStage v key l = l.filter (maxIntPred v key) := by
  unfold maxIntStage
  by_cases h : truthy v
  · rw [if_pos h]
    cases hp : parseIntJS v with
    | none => exact (List.filter_eq_self.mpr (fun p _ => by simp [maxIntPred, h, hp])).symm
    | some n => exact List.filter_congr (fun p _ => by simp [maxIntPred, h, hp])
  · rw [if_neg h, eq_comm, List.filter_eq_self]
    intro p _
    simp [maxIntPred, h]

/-- A float lower-bound stage is a `List.filter` by its predicate. -/
theorem minFloatStage_eq_filter (v : JSVal) (key : Player → ℚ) (l : List Player) :
    minFloatStage v key l = l.filter (minFloatPred v key) := by
  unfold minFloatStage
  by_cases h : truthy v
  · rw [if_pos h]
    cases hp : parseFloatJS v with
    | none => exact (List.filter_eq_self.mpr (fun p _ => by simp [minFloatPred, h, hp])).symm
    | some n => exact List.filter_congr (fun p _ => by simp [minFloatPred, h, hp])
  · rw [if_neg h, eq_comm, List.filter_eq_self]
    intro p _
    simp [minFloatPred, h]

/-- A float upper-bound stage is a `List.filter` by its predicate. -/
theorem maxFloatStage_eq_filter (v : JSVal) (key : Player → ℚ) (l : List Player) :
    maxFloatStage v key l = l.filter (maxFloatPred v key) := by
  unfold maxFloatStage
  by_cases h : truthy v
  · rw [if_pos h]
    cases hp : parseFloatJS v with
    | none => exact (List.filter_eq_self.mpr (fun p _ => by simp [maxFloatPred, h, hp])).symm
    | some n => exact List.filter_congr (fun p _ => by simp [maxFloatPred, h, hp])
  · rw [if_neg h, eq_comm, List.filter_eq_self]
    intro p _
    simp [maxFloatPred, h]

/-- The conjunction of all nine stage predicates, associated the way the
stage-by-stage filters merge. -/
def filterPred (f : FilterSpec) (p : Player) : Bool :=
  maxFloatPred f.maxRatio (fun p => p.ratio) p &&
  (minFloatPred f.minRatio (fun p => p.ratio) p &&
  (maxIntPred f.maxChests (fun p => p.chests) p &&
  (minIntPred f.minChests (fun p => p.chests) p &&
  (maxIntPred f.maxScore (fun p => p.score) p &&
  (minIntPred f.minScore (fun p => p.score) p &&
  (alliancePred f.selectedAlliance p &&
  (serverPred f.selectedServer p &&
  namePred f.playerSearch p)))))))

/-- `getFilteredPlayers` is a single `List.filter` by the conjunction of
its stage predicates. -/
theorem getFilteredPlayers_eq_filter (ps : List Player) (f : FilterSpec) :
    getFilteredPlayers ps f = ps.filter (filterPred f) := by
  simp only [getFilteredPlayers, nameStage_eq_filter, serverStage_eq_filter,
    allianceStage_eq_filter, minIntStage_eq_filter, maxIntStage_eq_filter,
    minFloatStage_eq_filter, maxFloatStage_eq_filter, List.filter_filter]
  rfl

/-- C8: filtering is idempotent — filtering a list that is already the
result of filtering with the same spec returns it unchanged. -/
theorem claim_C8_filter_idempotent (ps : List Player) (f : FilterSpec) :
    getFilteredPlayers (getFilteredPlayers ps f) f = getFilteredPlayers ps f := by
  simp only [getFilteredPlayers_eq_filter, List.filter_filter, Bool.and_self]

/-- A numeric bound parsed with `parseInt` imposes no constraint when it is
falsy or does not parse. -/
def skipIntBound (v : JSVal) : Bool := !truthy v || (parseIntJS v).isNone

/-- A numeric bound parsed with `parseFloat` imposes no constraint when it
is falsy or does not parse. -/
def skipFloatBound (v : JSVal) : Bool := !truthy v || (parseFloatJS v).isNone

/-- A skipped integer bound makes its predicate identically true. -/
theorem minIntPred_skip {v : JSVal} (key : Player → ℚ) (p : Player)
    (h : skipIntBound v = true) : minIntPred v key p = true := by
  unfold skipIntBound at h
  by_cases ht : truthy v
  · simp only [ht, Bool.not_true, Bool.false_or, Option.isNone_iff_eq_none] at h
    simp [minIntPred, ht, h]
  · simp [minIntPred, ht]

/-- A skipped integer upper bound makes its predicate identically true. -/
theorem maxIntPred_skip {v : JSVal} (key : Player → ℚ) (p : Player)
    (h : skipIntBound v = true) : maxIntPred v key p = true := by
  unfold skipIntBound at h
  by_cases ht : truthy v
  · simp only [ht, Bool.not_true, Bool.false_or, Option.isNone_iff_eq_none] at h
    simp [maxIntPred, ht, h]
  · simp [maxIntPred, ht]

/-- A skipped float bound makes its predicate identically true. -/
theorem minFloatPred_skip {v : JSVal} (key : Player → ℚ) (p : Player)
    (h : skipFloatBound v = true) : minFloatPred v key p = true := by
  unfold skipFloatBound at h
  by_cases ht : truthy v
  · simp only [ht, Bool.not_true, Bool.false_or, Option.isNone_iff_eq_none] at h
    simp [minFloatPred, ht, h]
  · simp [minFloatPred, ht]

/-- A skipped float upper bound makes its predicate identically true. -/
theorem maxFloatPred_skip {v : JSVal} (key : Player → ℚ) (p : Player)
    (h : skipFloatBound v = true) : maxFloatPred v key p = true := by
  unfold skipFloatBound at h
  by_cases ht : truthy v
  · simp only [ht, Bool.not_true, Bool.false_or, Option.isNone_iff_eq_none] at h
    simp [maxFloatPred, ht, h]
  · simp [maxFloatPred, ht]

/-- An absent (`undefined`) bound makes the integer predicates true. -/
theorem minIntPred_undef (key : Player → ℚ) (p : Player) :
    minIntPred .undef key p = true := rfl

/-- An absent (`undefined`) bound makes the integer upper predicate true. -/
theorem maxIntPred_undef (key : Player → ℚ) (p : Player) :
    maxIntPred .undef key p = true := rfl

/-- An absent (`undefined`) bound makes the float predicates true. -/
theorem minFloatPred_undef (key : Player → ℚ) (p : Player) :
    minFloatPred .undef key p = true := rfl

/-- An absent (`undefined`) bound makes the float upper predicate true. -/
theorem maxFloatPred_undef (key : Player → ℚ) (p : Player) :
    maxFloatPred .undef key p = true := rfl

/-- C3: each of the six numeric bound fields imposes no constraint when it
is absent, falsy (including `0` and `""`) or unparseable as a number —
filtering with it behaves exactly as with the field removed
(`JSVal.undef`).  In particular `{minScore: "abc"}` behaves like `{}`. -/
theorem claim_C3_invalid_bounds_impose_no_constraint (ps : List Player) (f : FilterSpec) :
    (skipIntBound f.minScore = true →
      getFilteredPlayers ps f = getFilteredPlayers ps { f with minScore := .undef }) ∧
    (skipIntBound f.maxScore = true →
      getFilteredPlayers ps f = getFilteredPlayers ps { f with maxScore := .undef }) ∧
    (skipIntBound f.minChests = true →
      getFilteredPlayers ps f = getFilteredPlayers ps { f with minChests := .undef }) ∧
    (skipIntBound f.maxChests = true →
      getFilteredPlayers ps f = getFilteredPlayers ps { f with maxChests := .undef }) ∧
    (skipFloatBound f.minRatio = true →
      getFilteredPlayers ps f = getFilteredPlayers ps { f with minRatio := .undef }) ∧
    (skipFloatBound f.maxRatio = true →
      getFilteredPlayers ps f = getFilteredPlayers ps { f with maxRatio := .undef }) := by
  refine ⟨fun h => ?_, fun h => ?_, fun h => ?_, fun h => ?_, fun h => ?_, fun h => ?_⟩
  · simp only [getFilteredPlayers_eq_filter]
    refine List.filter_congr (fun p _ => ?_)
    simp [filterPred, minIntPred_skip _ p h, minIntPred_undef]
  · simp only [getFilteredPlayers_eq_filter]
    refine List.filter_congr (fun p _ => ?_)
    simp [filterPred, maxIntPred_skip _ p h, maxIntPred_undef]
  · simp only [getFilteredPlayers_eq_filter]
    refine List.filter_congr (fun p _ => ?_)
    simp [filterPred, minIntPred_skip _ p h, minIntPred_undef]
  · simp only [getFilteredPlayers_eq_filter]
    refine List.filter_congr (fun p _ => ?_)
    simp [filterPred, maxIntPred_skip _ p h, maxIntPred_undef]
  · simp only [getFilteredPlayers_eq_filter]
    refine List.filter_congr (fun p _ => ?_)
    simp [filterPred, minFloatPred_skip _ p h, minFloatPred_undef]
  · simp only [getFilteredPlayers_eq_filter]
    refine List.filter_congr (fun p _ => ?_)
    simp [filterPred, maxFloatPred_skip _ p h, maxFloatPred_undef]

/-- Witness for C3: the unparseable bound `{minScore: "abc"}` filters
exactly like the empty spec on a concrete player list. -/
theorem claim_C3_witness :
    getFilteredPlayers [pA] { minScore := JSVal.str "abc" } =
      getFilteredPlayers [pA] ({} : FilterSpec) :=
  (claim_C3_invalid_bounds_impose_no_constraint [pA] { minScore := JSVal.str "abc" }).1
    (by decide)

/-- Membership in the `dedupFirst` fold: an element is in the result
exactly when it is in the accumulator or in the remaining input. -/
theorem mem_dedupFirst_fold (l : List JSVal) :
    ∀ (acc : List JSVal) (x : JSVal),
      (x ∈ l.foldl (fun acc x => if x ∈ acc then acc else acc ++ [x]) acc) ↔
        x ∈ acc ∨ x ∈ l := by
  induction l with
  | nil => simp
  | cons y t ih =>
    intro acc x
    rw [List.foldl_cons, ih]
    by_cases hy : y ∈ acc
    · simp only [if_pos hy, List.mem_cons]
      constructor
      · rintro (h | h)
        · exact Or.inl h
        · exact Or.inr (Or.inr h)
      · rintro (h | h | h)
        · exact Or.inl h
        · exact Or.inl (h ▸ hy)
        · exact Or.inr h
    · simp only [if_neg hy, List.mem_append, List.mem_singleton, List.mem_cons]
      tauto

/-- The `dedupFirst` fold preserves freedom from duplicates. -/
theorem nodup_dedupFirst_fold (l : List JSVal) :
    ∀ (acc : List JSVal), acc.Nodup →
      (l.foldl (fun acc x => if x ∈ acc then acc else acc ++ [x]) acc).Nodup := by
  induction l with
  | nil => exact fun acc h => h
  | cons y t ih =>
    intro acc hacc
    rw [List.foldl_cons]
    by_cases hy : y ∈ acc
    · rw [if_pos hy]
      exact ih acc hacc
    · rw [if_neg hy]
      refine ih _ ?_
      rw [← List.concat_eq_append]
      exact List.Nodup.concat hy hacc

/-- `dedupFirst` keeps exactly the elements of its input. -/
theorem mem_dedupFirst (l : List JSVal) (x : JSVal) : x ∈ dedupFirst l ↔ x ∈ l := by
  rw [dedupFirst, mem_dedupFirst_fold]
  simp

/-- `dedupFirst` produces a duplicate-free list. -/
theorem dedupFirst_nodup (l : List JSVal) : (dedupFirst l).Nodup :=
  nodup_dedupFirst_fold l [] List.nodup_nil

/-- The default JavaScript sort produces a list that is pairwise ordered
by string conversion. -/
theorem jsSortDefault_sorted (l : List JSVal) :
    (jsSortDefault l).Pairwise (fun a b => jsToString a ≤ jsToString b) := by
  unfold jsSortDefault
  refine List.Pairwise.imp (fun h => of_decide_eq_true h)
    (List.sorted_mergeSort (fun a b c hab hbc => ?_) (fun a b => ?_) l)
  · exact decide_eq_true (le_trans (of_decide_eq_true hab) (of_decide_eq_true hbc))
  · rcases le_total (jsToString a) (jsToString b) with h | h <;> simp [h]

/-- The default JavaScript sort preserves freedom from duplicates. -/
theorem jsSortDefault_nodup (l : List JSVal) (h : l.Nodup) : (jsSortDefault l).Nodup :=
  ((List.mergeSort_perm l _).nodup_iff).mpr h

/-- The default JavaScript sort keeps exactly the elements of its input. -/
theorem mem_jsSortDefault (l : List JSVal) (x : JSVal) : x ∈ jsSortDefault l ↔ x ∈ l :=
  List.mem_mergeSort

/-- C9: after every data load the derived alliance and server lists are
sorted ascending (in the default-sort string order), duplicate-free, and
free of the sentinel values: the empty-string alliance and the server
`"Unknown"` never appear, whatever players the raw document holds. -/
theorem claim_C9_alliance_server_lists (doc : RawDoc) (now : Int) :
    (processData doc now).alliances.Pairwise (fun a b => jsToString a ≤ jsToString b) ∧
    (processData doc now).alliances.Nodup ∧
    JSVal.str "" ∉ (processData doc now).alliances ∧
    (processData doc now).servers.Pairwise (fun a b => jsToString a ≤ jsToString b) ∧
    (processData doc now).servers.Nodup ∧
    JSVal.str "Unknown" ∉ (processData doc now).servers := by
  refine ⟨jsSortDefault_sorted _, jsSortDefault_nodup _ (dedupFirst_nodup _), ?_,
    jsSortDefault_sorted _, jsSortDefault_nodup _ (dedupFirst_nodup _), ?_⟩
  · intro hmem
    rw [show (processData doc now).alliances = jsSortDefault (dedupFirst
      ((((doc.players.getD []).mapIdx procPlayer).map (fun p => p.alliance)).filter
        (fun a => !jsStrictEq a (.str "")))) from rfl,
      mem_jsSortDefault, mem_dedupFirst] at hmem
    have h2 := (List.mem_filter.mp hmem).2
    simp [jsStrictEq] at h2
  · intro hmem
    rw [show (processData doc now).servers = jsSortDefault (dedupFirst
      ((((doc.players.getD []).mapIdx procPlayer).map (fun p => p.server)).filter
        (fun s => !jsStrictEq s (.str "Unknown")))) from rfl,
      mem_jsSortDefault, mem_dedupFirst] at hmem
    have h2 := (List.mem_filter.mp hmem).2
    simp [jsStrictEq] at h2

/-- Well-formedness of a bucket table starting at lower bound `b`: each
bucket's exclusive upper bound is the next bucket's inclusive lower
bound, bounds strictly increase, and the last bucket is unbounded. -/
inductive GoodRanges : ℚ → List QRange → Prop where
  | last (b : ℚ) (lab : String) : GoodRanges b [⟨b, none, lab⟩]
  | cons (b c : ℚ) (lab : String) (rs : List QRange) :
      b < c → GoodRanges c rs → GoodRanges b (⟨b, some c, lab⟩ :: rs)

/-- A value below the table's lower bound falls in no bucket. -/
theorem GoodRanges.countP_zero :
    ∀ {b : ℚ} {rs : List QRange}, GoodRanges b rs →
      ∀ s : ℚ, s < b → rs.countP (fun r => inRangeQ s r) = 0 := by
  intro b rs h
  induction h with
  | last b lab =>
    intro s hs
    simp [List.countP_cons, inRangeQ, not_le.mpr hs]
  | cons b c lab rs hbc hg ih =>
    intro s hs
    rw [List.countP_cons, ih s (lt_trans hs hbc)]
    simp [inRangeQ, not_le.mpr hs]

/-- A value at or above the table's lower bound falls in exactly one
bucket: buckets are lower-inclusive, upper-exclusive, and the last is
unbounded above. -/
theorem GoodRanges.countP_one :
    ∀ {b : ℚ} {rs : List QRange}, GoodRanges b rs →
      ∀ s : ℚ, b ≤ s → rs.countP (fun r => inRangeQ s r) = 1 := by
  intro b rs h
  induction h with
  | last b lab =>
    intro s hs
    simp [List.countP_cons, inRangeQ, hs]
  | cons b c lab rs hbc hg ih =>
    intro s hs
    rcases lt_or_le s c with hc | hc
    · rw [List.countP_cons, GoodRanges.countP_zero hg s hc]
      simp [inRangeQ, hs, hc]
    · rw [List.countP_cons, ih s hc]
      simp [inRangeQ, not_lt.mpr hc]

/-- The score bucket table is well formed from 0. -/
theorem scoreRanges_good : GoodRanges 0 scoreRanges := by
  unfold scoreRanges
  repeat
    first
    | exact GoodRanges.last _ _
    | refine GoodRanges.cons _ _ _ _ (by norm_num) ?_

/-- The chest bucket table is well formed from 0. -/
theorem chestRanges_good : GoodRanges 0 chestRanges := by
  unfold chestRanges
  repeat
    first
    | exact GoodRanges.last _ _
    | refine GoodRanges.cons _ _ _ _ (by norm_num) ?_

/-- The ratio bucket table is well formed from 0. -/
theorem ratioRanges_good : GoodRanges 0 ratioRanges := by
  unfold ratioRanges
  repeat
    first
    | exact GoodRanges.last _ _
    | refine GoodRanges.cons _ _ _ _ (by norm_num) ?_

/-- Adding one player adds its per-bucket indicator count to the bucket
totals. -/
theorem rangeCounts_sum_cons (rs : List QRange) (key : Player → ℚ) (p : Player)
    (t : List Player) :
    (rangeCounts rs key (p :: t)).sum =
      rs.countP (fun r => inRangeQ (key p) r) + (rangeCounts rs key t).sum := by
  induction rs with
  | nil => simp [rangeCounts]
  | cons r rrs ih =>
    simp only [rangeCounts, List.map_cons, List.sum_cons, List.countP_cons] at ih ⊢
    rw [List.filter_cons]
    by_cases hc : inRangeQ (key p) r
    · simp [hc, ih]
      try omega
    · simp [hc, ih]
      try omega

/-- When every player falls in exactly one bucket, the bucket counts sum
to the number of players. -/
theorem rangeCounts_sum (rs : List QRange) (key : Player → ℚ) (l : List Player)
    (h : ∀ p ∈ l, rs.countP (fun r => inRangeQ (key p) r) = 1) :
    (rangeCounts rs key l).sum = l.length := by
  induction l with
  | nil => simp [rangeCounts, List.map_const', List.sum_replicate]
  | cons p t ih =>
    rw [rangeCounts_sum_cons, h p (List.mem_cons_self p t),
      ih (fun q hq => h q (List.mem_cons_of_mem p hq)), List.length_cons]
    omega

/-- C6: for players with non-negative metrics, each player lies in exactly
one bucket of each fixed distribution table (lower-inclusive,
upper-exclusive, last bucket unbounded), so the counts of the score,
chest and ratio distribution charts each sum to the number of players. -/
theorem claim_C6_distribution_buckets (l : List Player)
    (hs : ∀ p ∈ l, 0 ≤ p.score) (hc : ∀ p ∈ l, 0 ≤ p.chests)
    (hr : ∀ p ∈ l, 0 ≤ p.ratio) :
    (∀ p ∈ l, scoreRanges.countP (fun r => inRangeQ p.score r) = 1) ∧
    (∀ p ∈ l, chestRanges.countP (fun r => inRangeQ p.chests r) = 1) ∧
    (∀ p ∈ l, ratioRanges.countP (fun r => inRangeQ p.ratio r) = 1) ∧
    ((createScoreDistributionData l).series.map (fun s => s.data.sum)).sum = (l.length : ℚ) ∧
    ((createChestDistributionData l).series.map (fun s => s.data.sum)).sum = (l.length : ℚ) ∧
    ((createRatioDistributionData l).series.map (fun s => s.data.sum)).sum = (l.length : ℚ) := by
  refine ⟨fun p hp => scoreRanges_good.countP_one p.score (hs p hp),
    fun p hp => chestRanges_good.countP_one p.chests (hc p hp),
    fun p hp => ratioRanges_good.countP_one p.ratio (hr p hp), ?_, ?_, ?_⟩
  · have h := rangeCounts_sum scoreRanges (fun p => p.score) l
      (fun p hp => scoreRanges_good.countP_one p.score (hs p hp))
    simp only [createScoreDistributionData, List.map_cons, List.map_nil, List.sum_cons,
      List.sum_nil, add_zero]
    rw [← Nat.cast_list_sum, h]
  · have h := rangeCounts_sum chestRanges (fun p => p.chests) l
      (fun p hp => chestRanges_good.countP_one p.chests (hc p hp))
    simp only [createChestDistributionData, List.map_cons, List.map_nil, List.sum_cons,
      List.sum_nil, add_zero]
    rw [← Nat.cast_list_sum, h]
  · have h := rangeCounts_sum ratioRanges (fun p => p.ratio) l
      (fun p hp => ratioRanges_good.countP_one p.ratio (hr p hp))
    simp only [createRatioDistributionData, List.map_cons, List.map_nil, List.sum_cons,
      List.sum_nil, add_zero]
    rw [← Nat.cast_list_sum, h]

/-- Witness for C6: the spec's example scores 500, 1500 and 1500000 give
bucket counts summing to 3. -/
theorem claim_C6_witness :
    ((createScoreDistributionData
        [⟨"a", "a", "", "S", 500, 1, 500⟩, ⟨"b", "b", "", "S", 1500, 1, 1500⟩,
          ⟨"c", "c", "", "S", 1500000, 1, 1500000⟩]).series.map
      (fun s => s.data.sum)).sum = 3 := by
  have h := (claim_C6_distribution_buckets
    [⟨"a", "a", "", "S", 500, 1, 500⟩, ⟨"b", "b", "", "S", 1500, 1, 1500⟩,
      ⟨"c", "c", "", "S", 1500000, 1, 1500000⟩]
    (by decide) (by decide) (by decide)).2.2.2.1
  simpa using h

/-- Modelled from the spec: "the first 10 elements of the list sorted in
descending order of the chosen metric with ties keeping their original
relative order (a stable sort)" — rendered canonically by decorating each
element with its original index and sorting by (metric descending,
original index ascending), an order with no ties. -/
def stableSortDescBy (key : Player → ℚ) (l : List Player) : List Player :=
  (l.enum.mergeSort (List.enumLE (fun a b => decide (key b ≤ key a)))).map (fun x => x.2)

/-- The comparator-based sort the source performs
(`[...players].sort((a, b) => b[m] - a[m])`) computes exactly the
spec-side stable descending sort: the comparator orders `a` before `b`
when `b[m] - a[m] ≤ 0`, and merge sort's built-in stability matches the
index-decorated tie break. -/
theorem jsSortByCmp_eq_stableSortDescBy (key : Player → ℚ) (l : List Player) :
    jsSortByCmp (fun a b => key b - key a) l = stableSortDescBy key l := by
  unfold jsSortByCmp stableSortDescBy
  rw [List.mergeSort_enum]
  congr 1
  funext a b
  exact decide_eq_decide.mpr sub_nonpos

/-- C7: the three top-10 lists of `getStatistics` and the `top_players`
chart are the first 10 elements of the players stably sorted in
descending metric order; a metric outside `score`/`chests`/`ratio` is
treated as `score` (and an absent metric defaults to `score` through
`options.metric || 'score'`). -/
theorem claim_C7_top_ten_stable (c : QCache) (l : List Player) (m : String) :
    (getStatistics c).topPlayersByScore =
      (stableSortDescBy (fun p => p.score) c.players).take 10 ∧
    (getStatistics c).topPlayersByChests =
      (stableSortDescBy (fun p => p.chests) c.players).take 10 ∧
    (getStatistics c).topPlayersByRatio =
      (stableSortDescBy (fun p => p.ratio) c.players).take 10 ∧
    createTopPlayersData l m =
      { series := [⟨capitalizeJS (validMetric m),
          ((stableSortDescBy (metricOf (validMetric m)) l).take 10).map
            (metricOf (validMetric m))⟩]
        categories :=
          ((stableSortDescBy (metricOf (validMetric m)) l).take 10).map
            (fun p => p.name) } ∧
    (m ∉ (["score", "chests", "ratio"] : List String) →
      createTopPlayersData l m = createTopPlayersData l "score") ∧
    jsOrStr none "score" = "score" := by
  have hsc : jsSortByCmp (fun a b => b.score - a.score) c.players =
      stableSortDescBy (fun p => p.score) c.players :=
    jsSortByCmp_eq_stableSortDescBy (fun p => p.score) c.players
  have hch : jsSortByCmp (fun a b => b.chests - a.chests) c.players =
      stableSortDescBy (fun p => p.chests) c.players :=
    jsSortByCmp_eq_stableSortDescBy (fun p => p.chests) c.players
  have hra : jsSortByCmp (fun a b => b.ratio - a.ratio) c.players =
      stableSortDescBy (fun p => p.ratio) c.players :=
    jsSortByCmp_eq_stableSortDescBy (fun p => p.ratio) c.players
  have htop : jsSortByCmp
      (fun a b => metricOf (validMetric m) b - metricOf (validMetric m) a) l =
      stableSortDescBy (metricOf (validMetric m)) l :=
    jsSortByCmp_eq_stableSortDescBy (metricOf (validMetric m)) l
  refine ⟨?_, ?_, ?_, ?_, ?_, rfl⟩
  · simp only [getStatistics, hsc]
  · simp only [getStatistics, hch]
  · simp only [getStatistics, hra]
  · simp only [createTopPlayersData, htop]
  · intro hm
    simp only [createTopPlayersData, validMetric, if_neg hm]
    have : ("score" : String) ∈ (["score", "chests", "ratio"] : List String) := by decide
    simp [this]

/-- Witness for C7: the unknown metric `"bogus"` produces the same chart
as the metric `"score"` on a concrete list. -/
theorem claim_C7_witness :
    createTopPlayersData [pA, pB] "bogus" = createTopPlayersData [pA, pB] "score" :=
  (claim_C7_top_ten_stable ⟨[], [], [], none⟩ [pA, pB] "bogus").2.2.2.2.1 (by decide)
